import Mathlib

/-!
Verification of the 3D-Graphics-EngineV2 software rasterizer.

Shallow embedding of the engine's math kernel (MathEq.h), shading stage
(Shaders.h), scalar rasterizer (RasterHelper.h), near-plane clipper
(unnamed part_004) and the parallel backend's buffer reset
(GLCompute.h), over exact rational arithmetic in place of IEEE floats.
Machine integers (int, unsigned int) are modelled as Int and Nat.
The C library square root (sqrtf) is passed in as an abstract function
parameter wherever the source calls it, since every verified property
holds for an arbitrary square-root implementation.
-/

set_option maxHeartbeats 1000000

namespace Engine

/-- vec3 from Defines.h: three single-precision floats, modelled as rationals. -/
structure Vec3 where
  x : ℚ
  y : ℚ
  z : ℚ
  deriving DecidableEq, Repr

/-- vec4 from Defines.h: homogeneous coordinate, modelled as rationals. -/
structure Vec4 where
  x : ℚ
  y : ℚ
  z : ℚ
  w : ℚ
  deriving DecidableEq, Repr

/-- vertex from Defines.h: homogeneous position, packed 32-bit color
(modelled as Nat), and texture coordinates.  The unused pos2 scratch field
(never read by any function modelled here, and left uninitialized by the
source's LerpVertex) is omitted. -/
structure Vertex where
  pos : Vec4
  color : ℕ
  u : ℚ
  v : ℚ
  deriving DecidableEq, Repr

/-- matrix3x3 from Defines.h, row-major: field ab is row a, column b. -/
structure M3 where
  xx : ℚ
  xy : ℚ
  xz : ℚ
  yx : ℚ
  yy : ℚ
  yz : ℚ
  zx : ℚ
  zy : ℚ
  zz : ℚ
  deriving DecidableEq, Repr

/-- matrix4x4 from Defines.h, row-major: field ab is row a, column b;
axisX is the x-row (xx,xy,xz,xw) and axisW the translation row. -/
structure M4 where
  xx : ℚ
  xy : ℚ
  xz : ℚ
  xw : ℚ
  yx : ℚ
  yy : ℚ
  yz : ℚ
  yw : ℚ
  zx : ℚ
  zy : ℚ
  zz : ℚ
  zw : ℚ
  wx : ℚ
  wy : ℚ
  wz : ℚ
  ww : ℚ
  deriving DecidableEq, Repr

/-- matrixMultiplicationMatrix from MathEq.h: entry (i,j) of the product is
the dot product of row i of m1 with column j of m2. -/
def matrixMultiplicationMatrix (m1 m2 : M4) : M4 where
  xx := m1.xx * m2.xx + m1.xy * m2.yx + m1.xz * m2.zx + m1.xw * m2.wx
  xy := m1.xx * m2.xy + m1.xy * m2.yy + m1.xz * m2.zy + m1.xw * m2.wy
  xz := m1.xx * m2.xz + m1.xy * m2.yz + m1.xz * m2.zz + m1.xw * m2.wz
  xw := m1.xx * m2.xw + m1.xy * m2.yw + m1.xz * m2.zw + m1.xw * m2.ww
  yx := m1.yx * m2.xx + m1.yy * m2.yx + m1.yz * m2.zx + m1.yw * m2.wx
  yy := m1.yx * m2.xy + m1.yy * m2.yy + m1.yz * m2.zy + m1.yw * m2.wy
  yz := m1.yx * m2.xz + m1.yy * m2.yz + m1.yz * m2.zz + m1.yw * m2.wz
  yw := m1.yx * m2.xw + m1.yy * m2.yw + m1.yz * m2.zw + m1.yw * m2.ww
  zx := m1.zx * m2.xx + m1.zy * m2.yx + m1.zz * m2.zx + m1.zw * m2.wx
  zy := m1.zx * m2.xy + m1.zy * m2.yy + m1.zz * m2.zy + m1.zw * m2.wy
  zz := m1.zx * m2.xz + m1.zy * m2.yz + m1.zz * m2.zz + m1.zw * m2.wz
  zw := m1.zx * m2.xw + m1.zy * m2.yw + m1.zz * m2.zw + m1.zw * m2.ww
  wx := m1.wx * m2.xx + m1.wy * m2.yx + m1.wz * m2.zx + m1.ww * m2.wx
  wy := m1.wx * m2.xy + m1.wy * m2.yy + m1.wz * m2.zy + m1.ww * m2.wy
  wz := m1.wx * m2.xz + m1.wy * m2.yz + m1.wz * m2.zz + m1.ww * m2.wz
  ww := m1.wx * m2.xw + m1.wy * m2.yw + m1.wz * m2.zw + m1.ww * m2.ww

/-- matrixMultiplicationVec from MathEq.h: the vector is a row vector
multiplied on the left of the matrix (result_j = sum_i v_i * m[i][j]). -/
def matrixMultiplicationVec (mat : M4) (vec : Vec4) : Vec4 where
  x := mat.xx * vec.x + mat.yx * vec.y + mat.zx * vec.z + mat.wx * vec.w
  y := mat.xy * vec.x + mat.yy * vec.y + mat.zy * vec.z + mat.wy * vec.w
  z := mat.xz * vec.x + mat.yz * vec.y + mat.zz * vec.z + mat.wz * vec.w
  w := mat.xw * vec.x + mat.yw * vec.y + mat.zw * vec.z + mat.ww * vec.w

/-- MatrixIdentity from MathEq.h. -/
def MatrixIdentity : M4 where
  xx := 1
  xy := 0
  xz := 0
  xw := 0
  yx := 0
  yy := 1
  yz := 0
  yw := 0
  zx := 0
  zy := 0
  zz := 1
  zw := 0
  wx := 0
  wy := 0
  wz := 0
  ww := 1

/-- matrix3x3MulVec3 from MathEq.h: row vector times 3x3 matrix
(component j is sum_i v_i * m[i][j]). -/
def matrix3x3MulVec3 (m : M3) (v : Vec3) : Vec3 where
  x := m.xx * v.x + m.yx * v.y + m.zx * v.z
  y := m.xy * v.x + m.yy * v.y + m.zy * v.z
  z := m.xz * v.x + m.yz * v.y + m.zz * v.z

/-- matrix4Inverse from MathEq.h: takes the transpose of the upper 3x3
block (built by listing trix.xx, trix.yx, trix.zx, ... in the M3 field
order), maps the translation row through it and negates, zeroes the
fourth column and sets ww to 1.  The result field assignments mirror the
source line by line, including the wx/wy/wz overwrite. -/
def matrix4Inverse (trix : M4) : M4 :=
  let trans : M3 :=
    ⟨trix.xx, trix.yx, trix.zx, trix.xy, trix.yy, trix.zy, trix.xz, trix.yz, trix.zz⟩
  let posi : Vec3 := ⟨trix.wx, trix.wy, trix.wz⟩
  let invPosi0 := matrix3x3MulVec3 trans posi
  let invPosi : Vec3 := ⟨-invPosi0.x, -invPosi0.y, -invPosi0.z⟩
  { xx := trans.xx
    xy := trans.xy
    xz := trans.xz
    xw := 0
    yx := trans.yx
    yy := trans.yy
    yz := trans.yz
    yw := 0
    zx := trans.zx
    zy := trans.zy
    zz := trans.zz
    zw := 0
    wx := invPosi.x
    wy := invPosi.y
    wz := invPosi.z
    ww := 1 }

/-- Lerp from MathEq.h. -/
def Lerp (a b t : ℚ) : ℚ :=
  a + t * (b - a)

/-- vec3Dot from Shaders.h. -/
def vec3Dot (a b : Vec3) : ℚ :=
  a.x * b.x + a.y * b.y + a.z * b.z

/-- vec3Normalize from Shaders.h: sqrtf is passed as an abstract function
parameter; the source divides the components only when the computed
length exceeds 0.0001f. -/
def vec3Normalize (sqrt : ℚ → ℚ) (v : Vec3) : Vec3 :=
  let len := sqrt (v.x * v.x + v.y * v.y + v.z * v.z)
  if 1 / 10000 < len then ⟨v.x / len, v.y / len, v.z / len⟩ else v

/-- SV_LightDirection from Shaders.h (0.6f, 0.8f, -0.3f). -/
def SV_LightDirection : Vec3 :=
  ⟨3 / 5, 4 / 5, -(3 / 10)⟩

/-- SV_AmbientLight from Shaders.h (0.15f). -/
def SV_AmbientLight : ℚ :=
  3 / 20

/-- SV_SunColor from Shaders.h (1.0f, 0.95f, 0.8f). -/
def SV_SunColor : Vec3 :=
  ⟨1, 19 / 20, 4 / 5⟩

/-- calculateLighting from Shaders.h: normalizes the global light
direction, takes the dot with the face normal, clamps negatives to zero,
blends with the ambient term and clamps the result at one. -/
def calculateLighting (sqrt : ℚ → ℚ) (faceNormal : Vec3) : ℚ :=
  let lightDir := vec3Normalize sqrt SV_LightDirection
  let diffuse := vec3Dot faceNormal lightDir
  let diffuse2 := if diffuse < 0 then 0 else diffuse
  let lighting := SV_AmbientLight + (1 - SV_AmbientLight) * diffuse2
  if 1 < lighting then 1 else lighting

/-- PS_WVP from Shaders.h: applies world, view and projection in order,
then divides x, y, z by w only when w is nonzero. -/
def PS_WVP (world view proj : M4) (v : Vertex) : Vertex :=
  let p1 := matrixMultiplicationVec world v.pos
  let p2 := matrixMultiplicationVec view p1
  let p3 := matrixMultiplicationVec proj p2
  if p3.w ≠ 0 then
    { v with pos := ⟨p3.x / p3.w, p3.y / p3.w, p3.z / p3.w, p3.w⟩ }
  else
    { v with pos := p3 }

/-- LerpVertex from part_004: interpolates position (all four
components), u and v linearly at parameter t; the color is taken from
the first vertex. -/
def LerpVertex (a b : Vertex) (t : ℚ) : Vertex where
  pos :=
    ⟨a.pos.x + (b.pos.x - a.pos.x) * t,
     a.pos.y + (b.pos.y - a.pos.y) * t,
     a.pos.z + (b.pos.z - a.pos.z) * t,
     a.pos.w + (b.pos.w - a.pos.w) * t⟩
  u := a.u + (b.u - a.u) * t
  v := a.v + (b.v - a.v) * t
  color := a.color

/-- ClipTriangleToNear from part_004: clips one triangle against the
near plane z = nearZ in view space.  A vertex is inside when its z is at
least nearZ.  Returns the flat list of output vertices (3 vertices per
output triangle, at most 2 triangles), matching the outVerts array and
the returned triangle count of the source. -/
def ClipTriangleToNear (v0 v1 v2 : Vertex) (nearZ : ℚ) : List Vertex :=
  let numIn := (if nearZ ≤ v0.pos.z then 1 else 0) + (if nearZ ≤ v1.pos.z then 1 else 0)
    + (if nearZ ≤ v2.pos.z then 1 else 0)
  if numIn = 0 then
    []
  else if numIn = 3 then
    [v0, v1, v2]
  else if numIn = 1 then
    let sel :=
      if nearZ ≤ v0.pos.z then (v0, v1, v2)
      else if nearZ ≤ v1.pos.z then (v1, v2, v0)
      else (v2, v0, v1)
    let vIn := sel.1
    let vOut1 := sel.2.1
    let vOut2 := sel.2.2
    let t1 := (nearZ - vIn.pos.z) / (vOut1.pos.z - vIn.pos.z)
    let t2 := (nearZ - vIn.pos.z) / (vOut2.pos.z - vIn.pos.z)
    [vIn, LerpVertex vIn vOut1 t1, LerpVertex vIn vOut2 t2]
  else
    let sel :=
      if ¬ nearZ ≤ v0.pos.z then (v0, v1, v2)
      else if ¬ nearZ ≤ v1.pos.z then (v1, v2, v0)
      else (v2, v0, v1)
    let vOut := sel.1
    let vIn1 := sel.2.1
    let vIn2 := sel.2.2
    let t1 := (nearZ - vIn1.pos.z) / (vOut.pos.z - vIn1.pos.z)
    let t2 := (nearZ - vIn2.pos.z) / (vOut.pos.z - vIn2.pos.z)
    let clip1 := LerpVertex vIn1 vOut t1
    let clip2 := LerpVertex vIn2 vOut t2
    [vIn1, clip1, vIn2, vIn2, clip1, clip2]

/-- The clip vertex as the specification words it, written independently
of the source: position (all four components), u and v interpolated
linearly from the in-vertex a toward the out-vertex b at the plane
intersection parameter t = (nearZ - aZ) / (bZ - aZ); the color is copied
from the in-vertex.  To be compared against the source's LerpVertex
outputs. -/
def specClipVertex (nearZ : ℚ) (a b : Vertex) : Vertex :=
  let t := (nearZ - a.pos.z) / (b.pos.z - a.pos.z)
  { pos :=
      ⟨a.pos.x + (b.pos.x - a.pos.x) * t,
       a.pos.y + (b.pos.y - a.pos.y) * t,
       a.pos.z + (b.pos.z - a.pos.z) * t,
       a.pos.w + (b.pos.w - a.pos.w) * t⟩
    color := a.color
    u := a.u + (b.u - a.u) * t
    v := a.v + (b.v - a.v) * t }

/-- The engine's global screen state (Defines.h / RasterHelper.h):
RASTER_WIDTH and RASTER_HEIGHT, the SCREEN_ARRAY color buffer, the
DEPTH_ARRAY depth buffer, the STAR_BUFFER background and the
starsGenerated flag.  Buffers are total maps from flat index. -/
structure Raster where
  W : ℕ
  H : ℕ
  screen : ℕ → ℕ
  depth : ℕ → ℚ
  star : ℕ → ℕ
  starsGenerated : Bool

/-- pixelDrawer from RasterHelper.h: rejects out-of-bounds coordinates,
otherwise computes the flat index y * RASTER_WIDTH + x and overwrites
depth and color there only when z is strictly below the stored depth. -/
def pixelDrawer (s : Raster) (x y : ℤ) (z : ℚ) (color : ℕ) : Raster :=
  if x < 0 ∨ (s.W : ℤ) ≤ x ∨ y < 0 ∨ (s.H : ℤ) ≤ y then s
  else
    let index : ℕ := (y * s.W + x).toNat
    if z < s.depth index then
      { s with
        depth := fun i => if i = index then z else s.depth i,
        screen := fun i => if i = index then color else s.screen i }
    else s

/-- generateStarField from RasterHelper.h: when the flag is unset, fills
the star buffer with 0xFF000008 and then plants 300 stars whose
position, brightness and tint come from successive values of the C
library rand() stream (passed in as the abstract sequence rnd, seeded by
srand(42) in the source). -/
def generateStarField (rnd : ℕ → ℕ) (s : Raster) : Raster :=
  if s.starsGenerated then s
  else
    let base : ℕ → ℕ := fun i => if i < s.W * s.H then 0xFF000008 else s.star i
    let star := (List.range 300).foldl (fun st sIdx =>
      let x := rnd (4 * sIdx) % s.W
      let y := rnd (4 * sIdx + 1) % s.H
      let brightness := 100 + rnd (4 * sIdx + 2) % 155
      let index := y * s.W + x
      let colorType := rnd (4 * sIdx + 3) % 3
      let starColor :=
        if colorType = 0 then
          0xFF000000 ||| (brightness <<< 16) ||| (brightness <<< 8) ||| brightness
        else if colorType = 1 then
          0xFF000000 ||| ((brightness * 3 / 4) <<< 16) ||| ((brightness * 3 / 4) <<< 8) ||| brightness
        else
          0xFF000000 ||| (brightness <<< 16) ||| ((brightness * 9 / 10) <<< 8) ||| (brightness * 3 / 4)
      fun i => if i = index then starColor else st i) base
    { s with star := star, starsGenerated := true }

/-- clearColorBuffer from RasterHelper.h: ensures the star field exists,
then for every index below NUM_PIXELS copies the star buffer into the
color buffer and resets the depth buffer entry to 1.0f.  The color
argument of the source function is never read. -/
def clearColorBuffer (rnd : ℕ → ℕ) (s : Raster) (_color : ℕ) : Raster :=
  let s1 := generateStarField rnd s
  { s1 with
    screen := fun i => if i < s1.W * s1.H then s1.star i else s1.screen i,
    depth := fun i => if i < s1.W * s1.H then 1 else s1.depth i }

/-- The depth-buffer reset vector uploaded by GLCompute::dispatch
(GLCompute.h): NUM_PIXELS copies of 1000000.0f. -/
def dispatchDepthReset (numPixels : ℕ) : List ℚ :=
  List.replicate numPixels 1000000

/-- Truncation of a rational toward zero, the behavior of the C++
static_cast from float to int. -/
def ratTrunc (q : ℚ) : ℤ :=
  if 0 ≤ q then ⌊q⌋ else ⌈q⌉

/-- The inclusive integer range of a C++ loop for (i = a; i <= b; i++). -/
def intRange (a b : ℤ) : List ℤ :=
  (List.range (b + 1 - a).toNat).map (fun k => a + (k : ℤ))

/-- lineEquation from RasterHelper.h: the edge function of the segment
from start to end evaluated at (x, y). -/
def lineEquation (start finish : Vertex) (x y : ℚ) : ℚ :=
  let ax := (start.pos.y - finish.pos.y) * x
  let by1 := (finish.pos.x - start.pos.x) * y
  let c := start.pos.x * finish.pos.y - start.pos.y * finish.pos.x
  ax + by1 + c

/-- Triangle from Defines.h: the three barycentric weights (b, y, a). -/
structure Triangle where
  b : ℚ
  y : ℚ
  a : ℚ
  deriving DecidableEq, Repr

/-- baryRatio from RasterHelper.h: each weight is the edge function at
the current pixel divided by the edge function at the opposite vertex. -/
def baryRatio (v0 v1 v2 : Vertex) (currX currY : ℚ) : Triangle :=
  let mB := lineEquation v0 v2 v1.pos.x v1.pos.y
  let mG := lineEquation v1 v0 v2.pos.x v2.pos.y
  let mA := lineEquation v2 v1 v0.pos.x v0.pos.y
  let pB := lineEquation v0 v2 currX currY
  let pG := lineEquation v1 v0 currX currY
  let pA := lineEquation v2 v1 currX currY
  { a := pA / mA, b := pB / mB, y := pG / mG }

/-- sampleTexture from RasterHelper.h: clamps u and v to the unit
interval, scales by the texture extents minus one with C truncation, and
reads the texel at y * texWidth + x. -/
def sampleTexture (texture : List ℕ) (texWidth texHeight : ℤ) (u v : ℚ) : ℕ :=
  let u1 := if u < 0 then 0 else if 1 < u then 1 else u
  let v1 := if v < 0 then 0 else if 1 < v then 1 else v
  let x := ratTrunc (u1 * ((texWidth : ℚ) - 1))
  let y := ratTrunc (v1 * ((texHeight : ℚ) - 1))
  texture.getD (y * texWidth + x).toNat 0

/-- applyLighting from RasterHelper.h: unpacks the four 8-bit channels,
scales red, green and blue by the lighting factor times the sun color
(the C cast from float to unsigned truncates), clamps each at 255 and
repacks. -/
def applyLighting (color : ℕ) (lighting : ℚ) : ℕ :=
  let a := (color >>> 24) &&& 0xFF
  let r := (color >>> 16) &&& 0xFF
  let g := (color >>> 8) &&& 0xFF
  let b := color &&& 0xFF
  let r1 := (ratTrunc ((r : ℚ) * lighting * SV_SunColor.x)).toNat
  let g1 := (ratTrunc ((g : ℚ) * lighting * SV_SunColor.y)).toNat
  let b1 := (ratTrunc ((b : ℚ) * lighting * SV_SunColor.z)).toNat
  let r2 := if 255 < r1 then 255 else r1
  let g2 := if 255 < g1 then 255 else g1
  let b2 := if 255 < b1 then 255 else b1
  (a <<< 24) ||| (r2 <<< 16) ||| (g2 <<< 8) ||| b2

/-- fillTriangle from RasterHelper.h: scans the integer bounding box of
the three screen vertices, keeps the pixels whose three barycentric
weights all lie in the unit interval, interpolates u, v and depth,
samples the texture when one is bound (otherwise uses the flat color of
vertex 0), applies lighting and hands the pixel to pixelDrawer.  The
global g_currentLightingFactor is passed in as the lighting argument. -/
def fillTriangle (s : Raster) (v0 v1 v2 : Vertex) (lighting : ℚ)
    (texture : Option (List ℕ)) (texWidth texHeight : ℤ) : Raster :=
  let startX := min (min v0.pos.x v1.pos.x) v2.pos.x
  let startY := min (min v0.pos.y v1.pos.y) v2.pos.y
  let endX := max (max v0.pos.x v1.pos.x) v2.pos.x
  let endY := max (max v0.pos.y v1.pos.y) v2.pos.y
  (intRange (ratTrunc startY) (ratTrunc endY)).foldl (fun sy (y : ℤ) =>
    (intRange (ratTrunc startX) (ratTrunc endX)).foldl (fun sx (x : ℤ) =>
      let tri := baryRatio v0 v1 v2 (x : ℚ) (y : ℚ)
      if 0 ≤ tri.b ∧ tri.b ≤ 1 ∧ 0 ≤ tri.y ∧ tri.y ≤ 1 ∧ 0 ≤ tri.a ∧ tri.a ≤ 1 then
        let u := v0.u * tri.a + v1.u * tri.b + v2.u * tri.y
        let v := v0.v * tri.a + v1.v * tri.b + v2.v * tri.y
        let z := v0.pos.z * tri.a + v1.pos.z * tri.b + v2.pos.z * tri.y
        let pixelColor :=
          match texture with
          | some tex => if 0 < texWidth ∧ 0 < texHeight then sampleTexture tex texWidth texHeight u v else v0.color
          | none => v0.color
        let litColor := applyLighting pixelColor lighting
        pixelDrawer sx x y z litColor
      else sx) sy) s

/-- The signed screen-space area computed by DrawTriangle
(RasterHelper.h): cross product of the two edge vectors out of vertex 0. -/
def signedArea (v0 v1 v2 : Vertex) : ℚ :=
  let edge1x := v1.pos.x - v0.pos.x
  let edge1y := v1.pos.y - v0.pos.y
  let edge2x := v2.pos.x - v0.pos.x
  let edge2y := v2.pos.y - v0.pos.y
  edge1x * edge2y - edge1y * edge2x

/-- The screen-space stage of DrawTriangle (RasterHelper.h lines
272-282): after the vertex shader and toScreen mapping have produced
screen vertices, the triangle is discarded when its signed area is
nonnegative, otherwise it is rasterized by fillTriangle. -/
def DrawTriangleRaster (s : Raster) (v0 v1 v2 : Vertex) (lighting : ℚ)
    (texture : Option (List ℕ)) (texWidth texHeight : ℤ) : Raster :=
  if 0 ≤ signedArea v0 v1 v2 then s
  else fillTriangle s v0 v1 v2 lighting texture texWidth texHeight

/-- A finite sequence of pixelDrawer calls at one pixel (x, y), each
carrying a depth and a color, applied in order. -/
def applyCalls (s : Raster) (x y : ℤ) (calls : List (ℚ × ℕ)) : Raster :=
  calls.foldl (fun st zc => pixelDrawer st x y zc.1 zc.2) s

/-- One depth-test step on the (depth, color) pair stored at a single
pixel: the incoming (z, color) pair replaces the stored pair exactly
when z is strictly smaller (proof helper mirroring the body of
pixelDrawer at one index). -/
def depthStep (dc : ℚ × ℕ) (zc : ℚ × ℕ) : ℚ × ℕ :=
  if zc.1 < dc.1 then zc else dc

/-- Orthonormality of the rows of the upper 3x3 block of a 4x4 matrix:
each row has unit length and distinct rows are perpendicular (the block
is a rotation, possibly with a reflection). -/
def rowsOrthonormal (m : M4) : Prop :=
  m.xx * m.xx + m.xy * m.xy + m.xz * m.xz = 1 ∧
  m.yx * m.yx + m.yy * m.yy + m.yz * m.yz = 1 ∧
  m.zx * m.zx + m.zy * m.zy + m.zz * m.zz = 1 ∧
  m.xx * m.yx + m.xy * m.yy + m.xz * m.yz = 0 ∧
  m.xx * m.zx + m.xy * m.zy + m.xz * m.zz = 0 ∧
  m.yx * m.zx + m.yy * m.zy + m.yz * m.zz = 0

/-- A uniform scale-by-2 affine matrix: invertible upper block, zero
translation row, no perspective terms. -/
def scaleTwo : M4 where
  xx := 2
  xy := 0
  xz := 0
  xw := 0
  yx := 0
  yy := 2
  yz := 0
  yw := 0
  zx := 0
  zy := 0
  zz := 2
  zw := 0
  wx := 0
  wy := 0
  wz := 0
  ww := 1

/-- A 90-degree rotation about z with translation (5, 7, 9). -/
def rotZ90 : M4 where
  xx := 0
  xy := 1
  xz := 0
  xw := 0
  yx := -1
  yy := 0
  yz := 0
  yw := 0
  zx := 0
  zy := 0
  zz := 1
  zw := 0
  wx := 5
  wy := 7
  wz := 9
  ww := 1

/-- Screen-space vertex at (0, 0) with depth 0. -/
def cv0 : Vertex := ⟨⟨0, 0, 0, 1⟩, 0xFFFF0000, 0, 0⟩

/-- Screen-space vertex at (1, 0) with depth 0. -/
def cv1 : Vertex := ⟨⟨1, 0, 0, 1⟩, 0xFFFF0000, 0, 0⟩

/-- Screen-space vertex at (0, 1) with depth 0. -/
def cv2 : Vertex := ⟨⟨0, 1, 0, 1⟩, 0xFFFF0000, 0, 0⟩

/-- A concrete 2x2 screen whose color buffer is 0 everywhere, depth
buffer 1 everywhere, with the star field already generated. -/
def rasterTwo : Raster := ⟨2, 2, fun _ => 0, fun _ => 1, fun _ => 0, true⟩

/-- A concrete 1x1 screen whose single pixel holds color 7 at depth 1. -/
def rasterOne : Raster := ⟨1, 1, fun _ => 7, fun _ => 1, fun _ => 0, true⟩

/-- View-space vertex with z = -1 (behind a near plane at z = 0). -/
def vNegA : Vertex := ⟨⟨0, 0, -1, 1⟩, 0xFF0000FF, 0, 0⟩

/-- A second view-space vertex with z = -1. -/
def vNegB : Vertex := ⟨⟨2, 3, -1, 1⟩, 42, 1, 1⟩

/-- A third view-space vertex with z = -1. -/
def vNegC : Vertex := ⟨⟨5, -2, -1, 1⟩, 43, 0, 1⟩

/-- View-space vertex with z = +1 (in front of a near plane at z = 0). -/
def vPosA : Vertex := ⟨⟨1, 0, 1, 1⟩, 0xFF00FF00, 1/2, 1/3⟩

/-- A second view-space vertex with z = +1. -/
def vPosB : Vertex := ⟨⟨0, 1, 1, 1⟩, 0xFFFF0000, 1/4, 1/5⟩

/-- A third view-space vertex with z = +1. -/
def vPosC : Vertex := ⟨⟨-1, 2, 1, 1⟩, 0xFF123456, 3/4, 2/5⟩

/-- A vertex whose position has w = 0 (degenerate after projection when
all three matrices are the identity). -/
def vW0 : Vertex := ⟨⟨1, 2, 3, 0⟩, 5, 0, 0⟩

/- ------------------------------------------------------------------ -/
/- Helper lemmas                                                       -/
/- ------------------------------------------------------------------ -/

theorem generateStarField_W (rnd : ℕ → ℕ) (s : Raster) :
    (generateStarField rnd s).W = s.W := by
  unfold generateStarField
  split <;> rfl

theorem generateStarField_H (rnd : ℕ → ℕ) (s : Raster) :
    (generateStarField rnd s).H = s.H := by
  unfold generateStarField
  split <;> rfl

theorem getD_replicate_of_lt {α : Type} (a d : α) (n j : ℕ) (h : j < n) :
    (List.replicate n a).getD j d = a := by
  induction n generalizing j with
  | zero => omega
  | succ k ih =>
    cases j with
    | zero => rfl
    | succ j' => exact ih j' (by omega)

/- ------------------------------------------------------------------ -/
/- C6: pixelDrawer bounds safety                                       -/
/- ------------------------------------------------------------------ -/

/-- C6: pixelDrawer performs no write at all when the pixel coordinate
is out of bounds (x below 0 or at least RASTER_WIDTH, y below 0 or at
least RASTER_HEIGHT); when in bounds, the only index it can touch is
y * RASTER_WIDTH + x, which lies strictly below
RASTER_WIDTH * RASTER_HEIGHT, so no out-of-bounds buffer access is
possible. -/
theorem pixelDrawer_bounds (s : Raster) (x y : ℤ) (z : ℚ) (c : ℕ) :
    ((x < 0 ∨ (s.W : ℤ) ≤ x ∨ y < 0 ∨ (s.H : ℤ) ≤ y) → pixelDrawer s x y z c = s) ∧
    (0 ≤ x → x < (s.W : ℤ) → 0 ≤ y → y < (s.H : ℤ) →
      (y * (s.W : ℤ) + x).toNat < s.W * s.H ∧
      ∀ i, i ≠ (y * (s.W : ℤ) + x).toNat →
        (pixelDrawer s x y z c).screen i = s.screen i ∧
        (pixelDrawer s x y z c).depth i = s.depth i) := by
  constructor
  · intro h
    unfold pixelDrawer
    rw [if_pos h]
  · intro hx0 hxW hy0 hyH
    have hcond : ¬(x < 0 ∨ (s.W : ℤ) ≤ x ∨ y < 0 ∨ (s.H : ℤ) ≤ y) := by
      push_neg
      exact ⟨hx0, hxW, hy0, hyH⟩
    constructor
    · have h1 : (0 : ℤ) < s.W := lt_of_le_of_lt hx0 hxW
      have h3 : y * (s.W : ℤ) + x < (s.W : ℤ) * (s.H : ℤ) := by nlinarith
      have h4 : (0 : ℤ) ≤ y * s.W + x := add_nonneg (mul_nonneg hy0 h1.le) hx0
      have h5 : ((s.W * s.H : ℕ) : ℤ) = (s.W : ℤ) * (s.H : ℤ) := by push_cast; ring
      have h6 : y * (s.W : ℤ) + x < ((s.W * s.H : ℕ) : ℤ) := by rw [h5]; exact h3
      omega
    · intro i hi
      unfold pixelDrawer
      rw [if_neg hcond]
      dsimp only
      split
      · exact ⟨by simp [hi], by simp [hi]⟩
      · exact ⟨rfl, rfl⟩

/-- Witness for C6 at concrete inputs: an out-of-bounds call on the 1x1
screen leaves the state untouched, and the in-bounds index at (0, 0)
lies below the buffer size. -/
theorem pixelDrawer_bounds_witness :
    pixelDrawer rasterOne 2 0 0 5 = rasterOne ∧
    ((0 : ℤ) * (rasterOne.W : ℤ) + 0).toNat < rasterOne.W * rasterOne.H :=
  ⟨(pixelDrawer_bounds rasterOne 2 0 0 5).1 (by decide),
   ((pixelDrawer_bounds rasterOne 0 0 0 5).2 (by decide) (by decide) (by decide) (by decide)).1⟩

/- ------------------------------------------------------------------ -/
/- C7: PS_WVP skips the divide when w = 0                              -/
/- ------------------------------------------------------------------ -/

/-- C7: when the position produced by the world, view and projection
products has w = 0, PS_WVP leaves x, y, z exactly as the matrix
products produced them (no divide); the divide by w happens only when
w is nonzero. -/
theorem PS_WVP_w_zero (world view proj : M4) (v : Vertex)
    (p : Vec4)
    (hp : p = matrixMultiplicationVec proj
      (matrixMultiplicationVec view (matrixMultiplicationVec world v.pos))) :
    (p.w = 0 → PS_WVP world view proj v = { v with pos := p }) ∧
    (p.w ≠ 0 → PS_WVP world view proj v =
      { v with pos := ⟨p.x / p.w, p.y / p.w, p.z / p.w, p.w⟩ }) := by
  subst hp
  constructor
  · intro h
    simp only [PS_WVP]
    rw [if_neg (not_not_intro h)]
  · intro h
    simp only [PS_WVP]
    rw [if_pos h]

/-- Witness for C7: with identity matrices and a vertex whose position
has w = 0 the shader is a no-op divide. -/
theorem PS_WVP_w_zero_witness :
    PS_WVP MatrixIdentity MatrixIdentity MatrixIdentity vW0 =
      { vW0 with
        pos := (matrixMultiplicationVec MatrixIdentity
          (matrixMultiplicationVec MatrixIdentity
            (matrixMultiplicationVec MatrixIdentity vW0.pos))) } :=
  (PS_WVP_w_zero MatrixIdentity MatrixIdentity MatrixIdentity vW0 _ rfl).1
    (by norm_num [matrixMultiplicationVec, MatrixIdentity, vW0])

/- ------------------------------------------------------------------ -/
/- C9: calculateLighting closed form                                   -/
/- ------------------------------------------------------------------ -/

/-- C9: for every face normal and every square-root implementation,
calculateLighting returns
min 1 (ambient + (1 - ambient) * max 0 (dot n (normalize lightDir))):
the diffuse term is clamped below at zero and the blended factor is
clamped above at one. -/
theorem calculateLighting_spec (sqrt : ℚ → ℚ) (n : Vec3) :
    calculateLighting sqrt n =
      min 1 (SV_AmbientLight +
        (1 - SV_AmbientLight) * max 0 (vec3Dot n (vec3Normalize sqrt SV_LightDirection))) := by
  unfold calculateLighting
  dsimp only
  set d := vec3Dot n (vec3Normalize sqrt SV_LightDirection) with hd
  have hmax : (if d < 0 then (0 : ℚ) else d) = max 0 d := by
    rcases lt_or_le d 0 with h | h
    · simp [h, max_eq_left h.le]
    · simp [not_lt.2 h, max_eq_right h]
  rw [hmax]
  set L := SV_AmbientLight + (1 - SV_AmbientLight) * max 0 d with hL
  rcases lt_or_le 1 L with h | h
  · rw [if_pos h]
    exact (min_eq_left h.le).symm
  · rw [if_neg (not_lt.2 h)]
    exact (min_eq_right h).symm

/- ------------------------------------------------------------------ -/
/- C8: matrix4Inverse is a right inverse only for rotation blocks      -/
/- ------------------------------------------------------------------ -/

/-- Counterexample for C8: the uniform scale-by-2 matrix is affine with
an invertible upper 3x3 block (determinant 8) and no perspective terms,
yet multiplying it with its matrix4Inverse does not give the identity. -/
theorem matrix4Inverse_scaleTwo_counterexample :
    (scaleTwo.xx * (scaleTwo.yy * scaleTwo.zz - scaleTwo.zy * scaleTwo.yz)
      - scaleTwo.xy * (scaleTwo.yx * scaleTwo.zz - scaleTwo.yz * scaleTwo.zx)
      + scaleTwo.xz * (scaleTwo.yx * scaleTwo.zy - scaleTwo.yy * scaleTwo.zx) ≠ 0) ∧
    scaleTwo.xw = 0 ∧ scaleTwo.yw = 0 ∧ scaleTwo.zw = 0 ∧ scaleTwo.ww = 1 ∧
    matrixMultiplicationMatrix scaleTwo (matrix4Inverse scaleTwo) ≠ MatrixIdentity := by
  refine ⟨by norm_num [scaleTwo], rfl, rfl, rfl, rfl, ?_⟩
  intro h
  have hxx := congrArg M4.xx h
  norm_num [matrixMultiplicationMatrix, matrix4Inverse, matrix3x3MulVec3,
    scaleTwo, MatrixIdentity] at hxx

/-- C8 (amended): for every affine matrix whose upper 3x3 block has
orthonormal rows (a rotation, possibly improper) and whose fourth
column is (0, 0, 0, 1), multiplying it with its matrix4Inverse gives
the identity matrix. -/
theorem matrix4Inverse_rotation_amended (m : M4) (h : rowsOrthonormal m)
    (hxw : m.xw = 0) (hyw : m.yw = 0) (hzw : m.zw = 0) (hww : m.ww = 1) :
    matrixMultiplicationMatrix m (matrix4Inverse m) = MatrixIdentity := by
  obtain ⟨h1, h2, h3, h4, h5, h6⟩ := h
  simp only [matrixMultiplicationMatrix, matrix4Inverse, matrix3x3MulVec3,
    MatrixIdentity, hxw, hyw, hzw, hww, M4.mk.injEq]
  refine ⟨?_, ?_, ?_, ?_, ?_, ?_, ?_, ?_, ?_, ?_, ?_, ?_, ?_, ?_, ?_, ?_⟩ <;>
    first
      | ring1
      | linear_combination h1
      | linear_combination h2
      | linear_combination h3
      | linear_combination h4
      | linear_combination h5
      | linear_combination h6

/-- Witness for C8 (amended): a 90-degree rotation about z with a
nonzero translation row. -/
theorem matrix4Inverse_rotation_witness :
    rowsOrthonormal rotZ90 ∧
    matrixMultiplicationMatrix rotZ90 (matrix4Inverse rotZ90) = MatrixIdentity :=
  ⟨by norm_num [rowsOrthonormal, rotZ90],
   matrix4Inverse_rotation_amended rotZ90 (by norm_num [rowsOrthonormal, rotZ90])
     rfl rfl rfl rfl⟩

/- ------------------------------------------------------------------ -/
/- C3: concrete clip-count instances                                   -/
/- ------------------------------------------------------------------ -/

/-- Counterexample for C3: with one vertex behind the near plane
(view-space z values -1, +1, +1 and the plane at z = 0) the clipper
outputs 6 vertices, i.e. 2 triangles, not the single triangle the claim
states. -/
theorem clip_one_behind_counterexample :
    (ClipTriangleToNear vNegA vPosA vPosB 0).length = 6 ∧
    (ClipTriangleToNear vNegA vPosA vPosB 0).length ≠ 3 := by
  norm_num [ClipTriangleToNear, vNegA, vPosA, vPosB, LerpVertex]

/-- C3 (amended): with z values -1, +1, +1 and the near plane at z = 0
the clipper returns exactly 2 triangles; with -1, -1, +1 exactly 1
triangle; with -1, -1, -1 none; and with +1, +1, +1 the original
triangle unchanged. -/
theorem clip_concrete_cases_amended :
    (ClipTriangleToNear vNegA vPosA vPosB 0).length = 2 * 3 ∧
    (ClipTriangleToNear vNegA vNegB vPosA 0).length = 1 * 3 ∧
    ClipTriangleToNear vNegA vNegB vNegC 0 = [] ∧
    ClipTriangleToNear vPosA vPosB vPosC 0 = [vPosA, vPosB, vPosC] := by
  norm_num [ClipTriangleToNear, vNegA, vNegB, vNegC, vPosA, vPosB, vPosC, LerpVertex]

/- ------------------------------------------------------------------ -/
/- C5: the two backends' depth sentinels                               -/
/- ------------------------------------------------------------------ -/

/-- Counterexample for C5: the scalar clear stores depth 1.0 while the
dispatch reset stores depth 1000000.0, and these are not the same
constant. -/
theorem depth_sentinel_counterexample :
    (clearColorBuffer (fun _ => 0) rasterOne 0).depth 0 = 1 ∧
    (dispatchDepthReset 1).getD 0 0 = 1000000 ∧
    (1 : ℚ) ≠ 1000000 := by
  refine ⟨?_, rfl, by norm_num⟩
  norm_num [clearColorBuffer, generateStarField, rasterOne]

/-- C5 (amended): clearColorBuffer initializes every depth element to
the positive constant 1.0 and GLCompute::dispatch resets every depth
element to the positive constant 1000000.0; both are positive sentinels
but they are different constants. -/
theorem depth_sentinels_amended (rnd : ℕ → ℕ) (s : Raster) (c : ℕ) (n i j : ℕ)
    (hi : i < s.W * s.H) (hj : j < n) :
    (clearColorBuffer rnd s c).depth i = 1 ∧
    (dispatchDepthReset n).getD j 0 = 1000000 ∧
    (0 : ℚ) < 1 ∧ (0 : ℚ) < 1000000 ∧ (1 : ℚ) ≠ 1000000 := by
  refine ⟨?_, ?_, by norm_num, by norm_num, by norm_num⟩
  · unfold clearColorBuffer
    dsimp only
    rw [generateStarField_W, generateStarField_H, if_pos hi]
  · unfold dispatchDepthReset
    exact getD_replicate_of_lt _ _ _ _ hj

/-- Witness for C5 (amended) on the concrete 1x1 screen. -/
theorem depth_sentinels_amended_witness :
    (clearColorBuffer (fun _ => 0) rasterOne 3).depth 0 = 1 ∧
    (dispatchDepthReset 4).getD 2 0 = 1000000 :=
  ⟨(depth_sentinels_amended (fun _ => 0) rasterOne 3 4 0 2 (by decide) (by decide)).1,
   (depth_sentinels_amended (fun _ => 0) rasterOne 3 4 0 2 (by decide) (by decide)).2.1⟩

/- ------------------------------------------------------------------ -/
/- C10: clearColorBuffer ignores its color argument                    -/
/- ------------------------------------------------------------------ -/

/-- C10: the buffers produced by clearColorBuffer do not depend on its
color argument; every pixel below NUM_PIXELS receives the star-field
value and every depth element is set to 1.0. -/
theorem clearColorBuffer_ignores_color (rnd : ℕ → ℕ) (s : Raster) (c c' : ℕ) :
    clearColorBuffer rnd s c = clearColorBuffer rnd s c' ∧
    (∀ i, i < s.W * s.H →
      (clearColorBuffer rnd s c).screen i = (generateStarField rnd s).star i ∧
      (clearColorBuffer rnd s c).depth i = 1) := by
  refine ⟨rfl, fun i hi => ⟨?_, ?_⟩⟩ <;>
    (unfold clearColorBuffer; dsimp only;
     rw [generateStarField_W, generateStarField_H, if_pos hi])

/-- Witness for C10 on the concrete 1x1 screen. -/
theorem clearColorBuffer_ignores_color_witness :
    clearColorBuffer (fun _ => 0) rasterOne 1 = clearColorBuffer (fun _ => 0) rasterOne 2 ∧
    (clearColorBuffer (fun _ => 0) rasterOne 1).depth 0 = 1 :=
  ⟨(clearColorBuffer_ignores_color (fun _ => 0) rasterOne 1 2).1,
   ((clearColorBuffer_ignores_color (fun _ => 0) rasterOne 1 2).2 0 (by decide)).2⟩

/- ------------------------------------------------------------------ -/
/- C4: the backface cull                                               -/
/- ------------------------------------------------------------------ -/

theorem fillTriangle_cv_screen_zero :
    (fillTriangle rasterTwo cv0 cv1 cv2 1 none 0 0).screen 0 = 4294901760 := by
  have hr : intRange 0 1 = [0, 1] := by decide
  have ht0 : ratTrunc 0 = 0 := by norm_num [ratTrunc]
  have ht1 : ratTrunc 1 = 1 := by norm_num [ratTrunc]
  have hi0 : (0 : ℤ).toNat = 0 := by decide
  have hi1 : (1 : ℤ).toNat = 1 := by decide
  have hi2 : (2 : ℤ).toNat = 2 := by decide
  unfold fillTriangle
  norm_num [cv0, cv1, cv2, ht0, ht1, hr, List.foldl, baryRatio, lineEquation,
    pixelDrawer, applyLighting, sampleTexture, ratTrunc, SV_SunColor, rasterTwo,
    hi0, hi1, hi2]
  have b1 : (4294901760 : ℕ) >>> 24 &&& 255 = 255 := by decide
  have b2 : (4294901760 : ℕ) >>> 16 &&& 255 = 255 := by decide
  have b3 : (4294901760 : ℕ) >>> 8 &&& 255 = 0 := by decide
  have b4 : (4294901760 : ℕ) &&& 255 = 0 := by decide
  norm_num [b1, b2, b3, b4]
  decide

/-- Counterexample for C4: the screen-space triangle (0,0), (1,0),
(0,1) has signed area +1, so DrawTriangle discards it (the state is
returned untouched) even though rasterizing it would have written
pixels; the claim states this winding is retained. -/
theorem backface_cull_counterexample :
    signedArea cv0 cv1 cv2 = 1 ∧
    DrawTriangleRaster rasterTwo cv0 cv1 cv2 1 none 0 0 = rasterTwo ∧
    (fillTriangle rasterTwo cv0 cv1 cv2 1 none 0 0).screen 0 ≠ rasterTwo.screen 0 := by
  have harea : signedArea cv0 cv1 cv2 = 1 := by
    norm_num [signedArea, cv0, cv1, cv2]
  refine ⟨harea, ?_, ?_⟩
  · unfold DrawTriangleRaster
    rw [if_pos (by rw [harea]; norm_num)]
  · have h := fillTriangle_cv_screen_zero
    rw [h]
    norm_num [rasterTwo]

/-- C4 (amended): DrawTriangle discards a triangle exactly when its
signed screen-space area, from the two edge vectors out of vertex 0, is
nonnegative, and otherwise rasterizes it; the triangle (0,0), (1,0),
(0,1) has signed area +1 and is therefore culled, while swapping any
two of its vertices yields signed area -1, which is retained. -/
theorem backface_cull_amended (s : Raster) (lighting : ℚ) (texture : Option (List ℕ))
    (tw th : ℤ) (v0 v1 v2 : Vertex) :
    (0 ≤ signedArea v0 v1 v2 → DrawTriangleRaster s v0 v1 v2 lighting texture tw th = s) ∧
    (signedArea v0 v1 v2 < 0 →
      DrawTriangleRaster s v0 v1 v2 lighting texture tw th =
        fillTriangle s v0 v1 v2 lighting texture tw th) ∧
    signedArea cv0 cv1 cv2 = 1 ∧
    signedArea cv1 cv0 cv2 = -1 ∧ signedArea cv0 cv2 cv1 = -1 ∧ signedArea cv2 cv1 cv0 = -1 := by
  refine ⟨fun h => ?_, fun h => ?_,
    by norm_num [signedArea, cv0, cv1, cv2],
    by norm_num [signedArea, cv0, cv1, cv2],
    by norm_num [signedArea, cv0, cv1, cv2],
    by norm_num [signedArea, cv0, cv1, cv2]⟩
  · unfold DrawTriangleRaster
    rw [if_pos h]
  · unfold DrawTriangleRaster
    rw [if_neg (not_le.2 h)]

/- ------------------------------------------------------------------ -/
/- C1: the clipper's case analysis                                     -/
/- ------------------------------------------------------------------ -/

/-- C1: ClipTriangleToNear is fully determined by which of the three
vertices satisfy z >= nearZ.  All three behind: no output.  All three
in: the input triangle unchanged.  Exactly one in: one triangle made of
the in-vertex and the two vertices interpolated from it toward each
out-vertex at t = (nearZ - vInZ) / (vOutZ - vInZ), position, u, v
interpolated linearly, color copied from the in-vertex.  Exactly two
in: the clipped quadrilateral as two triangles sharing the retained
in-vertex vIn2 and the first intersection vertex. -/
theorem ClipTriangleToNear_cases (v0 v1 v2 : Vertex) (nearZ : ℚ) :
    (v0.pos.z < nearZ → v1.pos.z < nearZ → v2.pos.z < nearZ →
      ClipTriangleToNear v0 v1 v2 nearZ = []) ∧
    (nearZ ≤ v0.pos.z → nearZ ≤ v1.pos.z → nearZ ≤ v2.pos.z →
      ClipTriangleToNear v0 v1 v2 nearZ = [v0, v1, v2]) ∧
    (nearZ ≤ v0.pos.z → v1.pos.z < nearZ → v2.pos.z < nearZ →
      ClipTriangleToNear v0 v1 v2 nearZ =
        [v0, specClipVertex nearZ v0 v1, specClipVertex nearZ v0 v2]) ∧
    (v0.pos.z < nearZ → nearZ ≤ v1.pos.z → v2.pos.z < nearZ →
      ClipTriangleToNear v0 v1 v2 nearZ =
        [v1, specClipVertex nearZ v1 v2, specClipVertex nearZ v1 v0]) ∧
    (v0.pos.z < nearZ → v1.pos.z < nearZ → nearZ ≤ v2.pos.z →
      ClipTriangleToNear v0 v1 v2 nearZ =
        [v2, specClipVertex nearZ v2 v0, specClipVertex nearZ v2 v1]) ∧
    (v0.pos.z < nearZ → nearZ ≤ v1.pos.z → nearZ ≤ v2.pos.z →
      ClipTriangleToNear v0 v1 v2 nearZ =
        [v1, specClipVertex nearZ v1 v0, v2,
         v2, specClipVertex nearZ v1 v0, specClipVertex nearZ v2 v0]) ∧
    (nearZ ≤ v0.pos.z → v1.pos.z < nearZ → nearZ ≤ v2.pos.z →
      ClipTriangleToNear v0 v1 v2 nearZ =
        [v2, specClipVertex nearZ v2 v1, v0,
         v0, specClipVertex nearZ v2 v1, specClipVertex nearZ v0 v1]) ∧
    (nearZ ≤ v0.pos.z → nearZ ≤ v1.pos.z → v2.pos.z < nearZ →
      ClipTriangleToNear v0 v1 v2 nearZ =
        [v0, specClipVertex nearZ v0 v2, v1,
         v1, specClipVertex nearZ v0 v2, specClipVertex nearZ v1 v2]) := by
  refine ⟨fun h0 h1 h2 => ?_, fun h0 h1 h2 => ?_, fun h0 h1 h2 => ?_, fun h0 h1 h2 => ?_,
    fun h0 h1 h2 => ?_, fun h0 h1 h2 => ?_, fun h0 h1 h2 => ?_, fun h0 h1 h2 => ?_⟩ <;>
    simp_all [ClipTriangleToNear, specClipVertex, LerpVertex, not_le.2, le_of_lt]

/-- Witness for C1 at a concrete one-vertex-in triangle. -/
theorem ClipTriangleToNear_cases_witness :
    ClipTriangleToNear vPosA vNegA vNegB 0 =
      [vPosA, specClipVertex 0 vPosA vNegA, specClipVertex 0 vPosA vNegB] :=
  (ClipTriangleToNear_cases vPosA vNegA vNegB 0).2.2.1
    (by norm_num [vPosA]) (by norm_num [vNegA]) (by norm_num [vNegB])

/-- Witness for C4 (amended): the culled and the retained branch each
taken at a concrete triangle. -/
theorem backface_cull_amended_witness :
    DrawTriangleRaster rasterTwo cv0 cv1 cv2 1 none 0 0 = rasterTwo ∧
    DrawTriangleRaster rasterTwo cv1 cv0 cv2 1 none 0 0 =
      fillTriangle rasterTwo cv1 cv0 cv2 1 none 0 0 :=
  ⟨(backface_cull_amended rasterTwo 1 none 0 0 cv0 cv1 cv2).1
     (by norm_num [signedArea, cv0, cv1, cv2]),
   (backface_cull_amended rasterTwo 1 none 0 0 cv1 cv0 cv2).2.1
     (by norm_num [signedArea, cv0, cv1, cv2])⟩

/- ------------------------------------------------------------------ -/
/- C2: depth-test sequences at one pixel                               -/
/- ------------------------------------------------------------------ -/

theorem pixelDrawer_W_eq (s : Raster) (x y : ℤ) (z : ℚ) (c : ℕ) :
    (pixelDrawer s x y z c).W = s.W := by
  unfold pixelDrawer
  split
  · rfl
  · dsimp only
    split <;> rfl

theorem pixelDrawer_H_eq (s : Raster) (x y : ℤ) (z : ℚ) (c : ℕ) :
    (pixelDrawer s x y z c).H = s.H := by
  unfold pixelDrawer
  split
  · rfl
  · dsimp only
    split <;> rfl

theorem pixelDrawer_at (s : Raster) (x y : ℤ) (z : ℚ) (c : ℕ)
    (hx0 : 0 ≤ x) (hxW : x < (s.W : ℤ)) (hy0 : 0 ≤ y) (hyH : y < (s.H : ℤ)) :
    ((pixelDrawer s x y z c).depth ((y * (s.W : ℤ) + x).toNat),
     (pixelDrawer s x y z c).screen ((y * (s.W : ℤ) + x).toNat)) =
      depthStep (s.depth ((y * (s.W : ℤ) + x).toNat),
        s.screen ((y * (s.W : ℤ) + x).toNat)) (z, c) := by
  have hcond : ¬(x < 0 ∨ (s.W : ℤ) ≤ x ∨ y < 0 ∨ (s.H : ℤ) ≤ y) := by
    push_neg
    exact ⟨hx0, hxW, hy0, hyH⟩
  unfold pixelDrawer depthStep
  rw [if_neg hcond]
  dsimp only
  by_cases hz : z < s.depth ((y * (s.W : ℤ) + x).toNat)
  · simp [hz]
  · simp [hz]

theorem applyCalls_at (x y : ℤ) (calls : List (ℚ × ℕ)) :
    ∀ s : Raster, 0 ≤ x → x < (s.W : ℤ) → 0 ≤ y → y < (s.H : ℤ) →
      ((applyCalls s x y calls).depth ((y * (s.W : ℤ) + x).toNat),
       (applyCalls s x y calls).screen ((y * (s.W : ℤ) + x).toNat)) =
        calls.foldl depthStep
          (s.depth ((y * (s.W : ℤ) + x).toNat), s.screen ((y * (s.W : ℤ) + x).toNat)) := by
  induction calls with
  | nil => intro s _ _ _ _; rfl
  | cons zc rest ih =>
    intro s hx0 hxW hy0 hyH
    have hW := pixelDrawer_W_eq s x y zc.1 zc.2
    have hH := pixelDrawer_H_eq s x y zc.1 zc.2
    have h1 := pixelDrawer_at s x y zc.1 zc.2 hx0 hxW hy0 hyH
    have h2 := ih (pixelDrawer s x y zc.1 zc.2) hx0 (by rw [hW]; exact hxW) hy0
      (by rw [hH]; exact hyH)
    rw [hW] at h2
    simp only [applyCalls, List.foldl_cons] at h2 ⊢
    rw [h1] at h2
    exact h2

theorem foldl_depthStep_fst (calls : List (ℚ × ℕ)) :
    ∀ d : ℚ, ∀ c : ℕ, (calls.foldl depthStep (d, c)).1 = (calls.map Prod.fst).foldl min d := by
  induction calls with
  | nil => intro d c; rfl
  | cons zc rest ih =>
    intro d c
    simp only [List.foldl_cons, List.map_cons]
    by_cases h : zc.1 < d
    · rw [show depthStep (d, c) zc = zc from if_pos h,
        show min d zc.1 = zc.1 from min_eq_right h.le]
      exact ih zc.1 zc.2
    · rw [show depthStep (d, c) zc = (d, c) from if_neg h,
        show min d zc.1 = d from min_eq_left (not_lt.1 h)]
      exact ih d c

theorem foldl_depthStep_unchanged (calls : List (ℚ × ℕ)) :
    ∀ d : ℚ, ∀ c : ℕ, (∀ zc ∈ calls, ¬ zc.1 < d) → calls.foldl depthStep (d, c) = (d, c) := by
  induction calls with
  | nil => intro d c _; rfl
  | cons zc rest ih =>
    intro d c h
    have hz : ¬ zc.1 < d := h zc (List.mem_cons_self zc rest)
    simp only [List.foldl_cons]
    rw [show depthStep (d, c) zc = (d, c) from if_neg hz]
    exact ih d c (fun w hw => h w (List.mem_cons_of_mem zc hw))

theorem foldl_min_le_init (l : List ℚ) : ∀ d : ℚ, l.foldl min d ≤ d := by
  induction l with
  | nil => intro d; exact le_refl d
  | cons q rest ih =>
    intro d
    simp only [List.foldl_cons]
    exact le_trans (ih (min d q)) (min_le_left d q)

theorem foldl_min_le_mem (l : List ℚ) : ∀ d q : ℚ, q ∈ l → l.foldl min d ≤ q := by
  induction l with
  | nil =>
    intro d q hq
    cases hq
  | cons p rest ih =>
    intro d q hq
    simp only [List.foldl_cons]
    rcases List.mem_cons.1 hq with rfl | hq'
    · exact le_trans (foldl_min_le_init rest (min d q)) (min_le_right d q)
    · exact ih (min d p) q hq'

theorem foldl_min_eq_init (l : List ℚ) : ∀ d : ℚ, (∀ q ∈ l, d ≤ q) → l.foldl min d = d := by
  induction l with
  | nil => intro d _; rfl
  | cons p rest ih =>
    intro d h
    simp only [List.foldl_cons]
    rw [min_eq_left (h p (List.mem_cons_self p rest))]
    exact ih d (fun q hq => h q (List.mem_cons_of_mem p hq))

theorem foldl_depthStep_earliest (calls : List (ℚ × ℕ)) :
    ∀ d : ℚ, ∀ c : ℕ, (∃ zc ∈ calls, zc.1 < d) →
      ∀ zc₀, calls.find? (fun zc => decide (zc.1 = (calls.map Prod.fst).foldl min d)) = some zc₀ →
        (calls.foldl depthStep (d, c)).2 = zc₀.2 := by
  induction calls with
  | nil =>
    intro d c hex
    obtain ⟨w, hw, _⟩ := hex
    cases hw
  | cons zc rest ih =>
    intro d c hex zc₀ hfind
    simp only [List.map_cons, List.foldl_cons] at hfind ⊢
    by_cases hz : zc.1 < d
    · rw [show depthStep (d, c) zc = zc from if_pos hz]
      simp only [show min d zc.1 = zc.1 from min_eq_right hz.le] at hfind
      by_cases hex2 : ∃ w ∈ rest, w.1 < zc.1
      · obtain ⟨w, hw, hwlt⟩ := hex2
        have hm_le : (rest.map Prod.fst).foldl min zc.1 ≤ w.1 :=
          foldl_min_le_mem _ _ _ (List.mem_map_of_mem Prod.fst hw)
        have hmlt : (rest.map Prod.fst).foldl min zc.1 < zc.1 := lt_of_le_of_lt hm_le hwlt
        have hne : ¬ (zc.1 = (rest.map Prod.fst).foldl min zc.1) := by
          intro he
          rw [← he] at hmlt
          exact lt_irrefl zc.1 hmlt
        rw [List.find?_cons_of_neg _ (by simpa using hne)] at hfind
        exact ih zc.1 zc.2 ⟨w, hw, hwlt⟩ zc₀ hfind
      · push_neg at hex2
        have hm : (rest.map Prod.fst).foldl min zc.1 = zc.1 := by
          apply foldl_min_eq_init
          intro q hq
          obtain ⟨w, hw, rfl⟩ := List.mem_map.1 hq
          exact hex2 w hw
        simp only [hm] at hfind
        rw [List.find?_cons_of_pos _ (by simp)] at hfind
        have hzc : zc = zc₀ := Option.some.inj hfind
        have hrest := foldl_depthStep_unchanged rest zc.1 zc.2
          (fun w hw => not_lt.2 (hex2 w hw))
        rw [← hzc]
        exact congrArg Prod.snd hrest
    · rw [show depthStep (d, c) zc = (d, c) from if_neg hz]
      simp only [show min d zc.1 = d from min_eq_left (not_lt.1 hz)] at hfind
      obtain ⟨w, hw, hwlt⟩ := hex
      have hw_rest : w ∈ rest := by
        rcases List.mem_cons.1 hw with rfl | h'
        · exact absurd hwlt hz
        · exact h'
      have hm_le : (rest.map Prod.fst).foldl min d ≤ w.1 :=
        foldl_min_le_mem _ _ _ (List.mem_map_of_mem Prod.fst hw_rest)
      have hne : ¬ (zc.1 = (rest.map Prod.fst).foldl min d) := by
        intro he
        have hlt : zc.1 < d := by
          rw [he]
          exact lt_of_le_of_lt hm_le hwlt
        exact hz hlt
      rw [List.find?_cons_of_neg _ (by simpa using hne)] at hfind
      exact ih d c ⟨w, hw_rest, hwlt⟩ zc₀ hfind

/-- Counterexample for C2: with stored depth 1 and color 7, a single
call with z = 1 and color 42 achieves the minimum depth min(1, 1) = 1,
yet the stored color stays 7: the color of the earliest call achieving
the minimum is not stored when that minimum ties the initial depth. -/
theorem pixelDrawer_tie_counterexample :
    (applyCalls rasterOne 0 0 [(1, 42)]).depth 0 = min (rasterOne.depth 0) 1 ∧
    (1 : ℚ) = min (rasterOne.depth 0) 1 ∧
    (applyCalls rasterOne 0 0 [(1, 42)]).screen 0 = 7 ∧
    (applyCalls rasterOne 0 0 [(1, 42)]).screen 0 ≠ 42 := by
  norm_num [applyCalls, pixelDrawer, rasterOne, List.foldl]

/-- C2 (amended): over any finite sequence of pixelDrawer calls at one
in-bounds pixel, the final stored depth is the minimum of the initial
stored depth and all submitted z values; when at least one call's z is
strictly below the initial stored depth, the final stored color is the
color of the earliest call whose z equals that minimum, and otherwise
the stored color is unchanged; a single call whose z is not strictly
below the currently stored depth leaves the state untouched. -/
theorem pixelDrawer_sequence_amended (s : Raster) (x y : ℤ) (calls : List (ℚ × ℕ))
    (hx0 : 0 ≤ x) (hxW : x < (s.W : ℤ)) (hy0 : 0 ≤ y) (hyH : y < (s.H : ℤ)) :
    (applyCalls s x y calls).depth ((y * (s.W : ℤ) + x).toNat) =
      (calls.map Prod.fst).foldl min (s.depth ((y * (s.W : ℤ) + x).toNat)) ∧
    ((∀ zc ∈ calls, ¬ zc.1 < s.depth ((y * (s.W : ℤ) + x).toNat)) →
      (applyCalls s x y calls).screen ((y * (s.W : ℤ) + x).toNat) =
        s.screen ((y * (s.W : ℤ) + x).toNat)) ∧
    ((∃ zc ∈ calls, zc.1 < s.depth ((y * (s.W : ℤ) + x).toNat)) →
      ∀ zc₀, calls.find? (fun zc => decide (zc.1 =
          (calls.map Prod.fst).foldl min (s.depth ((y * (s.W : ℤ) + x).toNat)))) = some zc₀ →
        (applyCalls s x y calls).screen ((y * (s.W : ℤ) + x).toNat) = zc₀.2) ∧
    (∀ z : ℚ, ∀ c : ℕ, ¬ z < s.depth ((y * (s.W : ℤ) + x).toNat) →
      pixelDrawer s x y z c = s) := by
  have hpair := applyCalls_at x y calls s hx0 hxW hy0 hyH
  have hd := congrArg Prod.fst hpair
  have hc := congrArg Prod.snd hpair
  dsimp only at hd hc
  refine ⟨?_, ?_, ?_, ?_⟩
  · rw [hd]
    exact foldl_depthStep_fst calls _ _
  · intro hno
    rw [hc, foldl_depthStep_unchanged calls _ _ hno]
  · intro hex zc₀ hfind
    rw [hc]
    exact foldl_depthStep_earliest calls _ _ hex zc₀ hfind
  · intro z c hz
    have hcond : ¬(x < 0 ∨ (s.W : ℤ) ≤ x ∨ y < 0 ∨ (s.H : ℤ) ≤ y) := by
      push_neg
      exact ⟨hx0, hxW, hy0, hyH⟩
    unfold pixelDrawer
    rw [if_neg hcond]
    dsimp only
    rw [if_neg hz]

/-- Witness for C2 (amended) on the concrete 1x1 screen: one call below
the initial depth 1 stores its depth, and a call at the stored depth
leaves the state untouched. -/
theorem pixelDrawer_sequence_amended_witness :
    (applyCalls rasterOne 0 0 [((1 : ℚ)/2, 9)]).depth ((0 * ((rasterOne.W : ℤ)) + 0).toNat) =
      ([((1 : ℚ)/2, 9)].map Prod.fst).foldl min
        (rasterOne.depth ((0 * ((rasterOne.W : ℤ)) + 0).toNat)) ∧
    pixelDrawer rasterOne 0 0 1 5 = rasterOne :=
  ⟨(pixelDrawer_sequence_amended rasterOne 0 0 [((1 : ℚ)/2, 9)]
      (by decide) (by decide) (by decide) (by decide)).1,
   (pixelDrawer_sequence_amended rasterOne 0 0 [((1 : ℚ)/2, 9)]
      (by decide) (by decide) (by decide) (by decide)).2.2.2 1 5
     (by norm_num [rasterOne])⟩

end Engine
